import Mathlib

/-!
Verification of the waiting-list backlog simulation core of the repository
(`calculate_extra_sessions` and `simulate_backlog_reduction` in
`src/Transcribe.py`), shallowly embedded in Lean 4.

Modelling conventions:
* Python floats are modelled as exact rationals (`ℚ`); the decimal literals
  `0.5`, `0.25`, `0.3` of the source become `1/2`, `1/4`, `3/10`.
* The priority categories `"P1" .. "P4"` (the only keys ever used) become the
  inductive type `Cat`.
* Python dicts that may be missing a key (`avg_new_referrals_per_week`,
  `avg_sessions_per_category`, `avg_weeks_between_sessions`) become
  `Cat → Option _`; a failed lookup raises `SimError.keyError`, mirroring
  Python's `KeyError`.  `backlog_initial` becomes an association list
  `List (Cat × ℚ)`; the simulation iterates over its keys exactly as the
  source iterates `backlog_initial.keys()`.
* The two numpy output dicts of per-week arrays become association lists of
  `List ℚ` of length `num_weeks`; internally the mutable arrays are modelled
  as total functions `Cat → List ℚ` of which only the entries at the keys of
  `backlog_initial` are read, written or emitted.
* `raise ValueError(...)` becomes `Except.error (SimError.invalidConfiguration msg)`;
  Python's `ZeroDivisionError` (from `week_number % 0`) and `IndexError`
  (writing index 0 of a length-0 array when `num_weeks = 0`) are modelled by
  the corresponding `SimError` constructors.  `week_number % avg_weeks_between == 0`
  agrees with `Int.emod _ _ = 0` for every nonzero divisor.
-/

inductive Cat where
  | P1 | P2 | P3 | P4
deriving DecidableEq

/-- The keys of the `session_types` table of the source (its only keys). -/
inductive SessionKey where
  | min60 | min50 | min44
deriving DecidableEq

def WORK_DAY_MINUTES : ℕ := 480

def WORK_DAYS_PER_WEEK : ℕ := 5

/-- Table entry `session_types[k]["duration"]`. -/
def duration : SessionKey → ℕ
  | .min60 => 60
  | .min50 => 50
  | .min44 => 44

/-- Table entry `session_types[k]["sessions_per_day"] = WORK_DAY_MINUTES // duration`. -/
def sessions_per_day (k : SessionKey) : ℕ := WORK_DAY_MINUTES / duration k

/-- Table entry `session_types[k]["daily_capacity"]`. -/
def daily_capacity (k : SessionKey) : ℕ := sessions_per_day k * duration k

/-- Function `calculate_extra_sessions` (src/Transcribe.py lines 113-124): returns
`(total_extra_sessions, extra_sessions_per_day, extra_sessions_per_week)`. -/
def calculate_extra_sessions (session_type : SessionKey)
    (num_therapists num_weeks : ℤ) : ℤ × ℤ × ℤ :=
  let standard_duration := duration .min60
  let new_duration := duration session_type
  let workday_standard_sessions : ℤ := (WORK_DAY_MINUTES / standard_duration : ℕ)
  let workday_new_sessions : ℤ := (WORK_DAY_MINUTES / new_duration : ℕ)
  let extra_sessions_per_day := workday_new_sessions - workday_standard_sessions
  let extra_sessions_per_week :=
    extra_sessions_per_day * (WORK_DAYS_PER_WEEK : ℤ) * num_therapists
  let total_extra_sessions := extra_sessions_per_week * num_weeks
  (total_extra_sessions, extra_sessions_per_day, extra_sessions_per_week)

/-- The strategy string tested at src/Transcribe.py lines 147, 149, 166, 179. -/
def rotatingStrategy : String := "1 in 4 weeks for P3/P4"

/-- The strategy string tested at src/Transcribe.py line 154. -/
def evenSplitStrategy : String := "Even Split (50/50)"

/-- The strategy string offered by the UI for the `else` branch (line 156). -/
def urgencyStrategy : String := "Urgency-Weighted Scheduling"

/-- Errors the simulation core can raise. -/
inductive SimError where
  | invalidConfiguration (msg : String)
  | keyError (c : Cat)
  | zeroDivisionError
  | indexError
deriving DecidableEq

/-- Flag `is_p3p4_week` (src/Transcribe.py line 147). -/
def specialWeek (strategy : String) (week_number : ℕ) : Bool :=
  decide (strategy = rotatingStrategy ∧ week_number % 4 = 0)

/-- The `allocation` dict for one week (src/Transcribe.py lines 145-157),
as a function of the strategy and of `is_p3p4_week`. -/
def allocationFor (strategy : String) (is_p3p4_week : Bool) : Cat → ℚ :=
  if strategy = rotatingStrategy then
    if is_p3p4_week then
      fun c => match c with | .P3 => 1/2 | .P4 => 1/2 | _ => 0
    else
      fun c => match c with | .P1 => 1/2 | .P2 => 1/2 | _ => 0
  else if strategy = evenSplitStrategy then
    fun _ => 1/4
  else
    fun c => match c with | .P1 => 1/2 | .P2 => 3/10 | _ => 0

/-- The mutable per-category week arrays of the simulation
(`backlog_projection`, `patients_seen_per_week`). -/
@[ext]
structure SimState where
  backlog : Cat → List ℚ
  seen : Cat → List ℚ

/-- Assignment `f[c][i] = v` on a dict of numpy arrays. -/
def setEntry (f : Cat → List ℚ) (c : Cat) (i : ℕ) (v : ℚ) : Cat → List ℚ :=
  fun c2 => if c2 = c then (f c2).set i v else f c2

/-- One iteration of the inner `for category in backlog_initial.keys()` loop
(src/Transcribe.py lines 159-188), at array index `i` (week `i + 1`). -/
def categoryStep (strategy : String) (is_p3p4_week : Bool)
    (num_therapists sessions_per_therapist_per_week extra_sessions_per_week : ℤ)
    (avg_new_referrals_per_week : Cat → Option ℚ)
    (avg_sessions_per_category : Cat → Option ℚ)
    (avg_weeks_between_sessions : Cat → Option ℤ)
    (week_number i : ℕ)
    (st : SimState) (category : Cat) : Except SimError SimState :=
  match avg_new_referrals_per_week category with
  | none => .error (.keyError category)
  | some new_referrals =>
    let base_weekly_sessions := sessions_per_therapist_per_week * num_therapists
    let base_reduction : ℚ :=
      (base_weekly_sessions : ℚ) * allocationFor strategy is_p3p4_week category
    let extra_reduction : ℚ :=
      if (category = .P3 ∨ category = .P4) ∧
          (is_p3p4_week = true ∨ strategy ≠ rotatingStrategy) then
        (extra_sessions_per_week : ℚ) * allocationFor strategy is_p3p4_week category
      else 0
    let total_reduction := base_reduction + extra_reduction
    match avg_sessions_per_category category with
    | none => .error (.keyError category)
    | some avg_sessions =>
      match avg_weeks_between_sessions category with
      | none => .error (.keyError category)
      | some avg_weeks_between =>
        if avg_weeks_between = 0 then .error .zeroDivisionError
        else
          let follow_up_sessions : ℚ :=
            if (week_number : ℤ) % avg_weeks_between = 0 then
              new_referrals * (avg_sessions - 1)
            else 0
          let prev := (st.backlog category).getD (i - 1) 0
          if category = .P1 ∨ category = .P2 then
            if is_p3p4_week = true ∧ strategy = rotatingStrategy then
              let new_backlog := prev + new_referrals
              .ok { st with
                backlog := setEntry st.backlog category i ((max ⌊new_backlog⌋ 0 : ℤ) : ℚ) }
            else
              let new_backlog := prev + new_referrals - total_reduction + follow_up_sessions
              .ok { backlog := setEntry st.backlog category i ((max ⌊new_backlog⌋ 0 : ℤ) : ℚ),
                    seen := setEntry st.seen category i total_reduction }
          else
            let new_backlog := prev + new_referrals - total_reduction + follow_up_sessions
            .ok { backlog := setEntry st.backlog category i ((max ⌊new_backlog⌋ 0 : ℤ) : ℚ),
                  seen := setEntry st.seen category i total_reduction }

/-- One iteration of the outer `for i in range(1, len(weeks))` loop
(src/Transcribe.py lines 143-188). -/
def weekStep (strategy : String)
    (num_therapists sessions_per_therapist_per_week extra_sessions_per_week : ℤ)
    (avg_new_referrals_per_week : Cat → Option ℚ)
    (avg_sessions_per_category : Cat → Option ℚ)
    (avg_weeks_between_sessions : Cat → Option ℤ)
    (keys : List Cat) (st : SimState) (i : ℕ) : Except SimError SimState :=
  let week_number := i + 1
  let is_p3p4_week := specialWeek strategy week_number
  keys.foldlM
    (categoryStep strategy is_p3p4_week num_therapists sessions_per_therapist_per_week
      extra_sessions_per_week avg_new_referrals_per_week avg_sessions_per_category
      avg_weeks_between_sessions week_number i) st

/-- The value returned by `simulate_backlog_reduction`:
`(weeks, backlog_projection, patients_seen_per_week)`. -/
structure SimOutput where
  weeks : List ℕ
  backlog_projection : List (Cat × List ℚ)
  patients_seen_per_week : List (Cat × List ℚ)
deriving DecidableEq

/-- Function `simulate_backlog_reduction` (src/Transcribe.py lines 126-190). -/
def simulate_backlog_reduction (session_key : SessionKey) (strategy : String)
    (num_therapists sessions_per_therapist_per_week : ℤ)
    (avg_new_referrals_per_week : Cat → Option ℚ) (num_weeks : ℕ)
    (backlog_initial : List (Cat × ℚ))
    (avg_sessions_per_category : Cat → Option ℚ)
    (avg_weeks_between_sessions : Cat → Option ℤ) :
    Except SimError SimOutput :=
  if num_therapists ≤ 0 then
    .error (.invalidConfiguration ("Number of therapists must be greater than 0"))
  else if sessions_per_therapist_per_week ≤ 0 then
    .error (.invalidConfiguration ("Sessions per therapist must be greater than 0"))
  else
    let weeks := List.range' 1 num_weeks
    let st0 : SimState :=
      { backlog := fun _ => List.replicate num_weeks 0,
        seen := fun _ => List.replicate num_weeks 0 }
    let extra_sessions_per_week :=
      (calculate_extra_sessions session_key num_therapists (num_weeks : ℤ)).2.2
    let keys := backlog_initial.map Prod.fst
    do
      let st1 ← backlog_initial.foldlM (fun st p =>
        if num_weeks = 0 then .error .indexError
        else .ok { st with backlog := setEntry st.backlog p.1 0 p.2 }) st0
      let st2 ← (List.range' 1 (num_weeks - 1)).foldlM
        (weekStep strategy num_therapists sessions_per_therapist_per_week
          extra_sessions_per_week avg_new_referrals_per_week avg_sessions_per_category
          avg_weeks_between_sessions keys) st1
      .ok { weeks := weeks,
            backlog_projection := keys.map (fun c => (c, st2.backlog c)),
            patients_seen_per_week := keys.map (fun c => (c, st2.seen c)) }

/-- Input-mapping wrapper: a dict holding an entry for every category. -/
def fullMapQ (f : Cat → ℚ) : Cat → Option ℚ := fun c => some (f c)

/-- Input-mapping wrapper: a dict holding an integer entry for every category. -/
def fullMapZ (f : Cat → ℤ) : Cat → Option ℤ := fun c => some (f c)

/-- The four categories, in the order the UI builds `backlog_initial`. -/
def allCats : List Cat := [.P1, .P2, .P3, .P4]

/-- A `backlog_initial` dict holding an entry for every category. -/
def initList (f : Cat → ℚ) : List (Cat × ℚ) := allCats.map (fun c => (c, f c))

deriving instance DecidableEq for Except

/-! ## A direct per-category recurrence

Because the weekly update of one category reads and writes only that
category's arrays, the array-mutating loop of `simulate_backlog_reduction`
computes, per category, a simple recurrence.  `bval`/`sval` state it; the
refinement theorem below proves the loop equal to it. -/

/-- All parameters of one simulation run, with every per-category input
present (the looked-up values of the input dicts). -/
structure RunConfig where
  strategy : String
  num_therapists : ℤ
  sessions_per_week : ℤ
  extra : ℤ
  refs : Cat → ℚ
  avgS : Cat → ℚ
  avgW : Cat → ℤ
  init : Cat → ℚ

/-- Quantity `total_reduction` of week `wn` for one category (src/Transcribe.py
lines 162-169), as a pure function of the week number. -/
def totalReduction (p : RunConfig) (wn : ℕ) (c : Cat) : ℚ :=
  let sp := specialWeek p.strategy wn
  ((p.sessions_per_week * p.num_therapists : ℤ) : ℚ) * allocationFor p.strategy sp c +
    (if (c = .P3 ∨ c = .P4) ∧ (sp = true ∨ p.strategy ≠ rotatingStrategy) then
      (p.extra : ℚ) * allocationFor p.strategy sp c
    else 0)

/-- Quantity `follow_up_sessions` of week `wn` for one category (lines 174-176). -/
def followUp (p : RunConfig) (wn : ℕ) (c : Cat) : ℚ :=
  if (wn : ℤ) % p.avgW c = 0 then p.refs c * (p.avgS c - 1) else 0

/-- Series `backlog_projection[c][i]` as a recurrence over the array index `i`
(week `i + 1`); index `0` is the initial backlog (lines 140-141, 178-188). -/
def bval (p : RunConfig) (c : Cat) : ℕ → ℚ
  | 0 => p.init c
  | i + 1 =>
    let prev := bval p c i
    if (c = .P1 ∨ c = .P2) ∧ specialWeek p.strategy (i + 2) = true ∧
        p.strategy = rotatingStrategy then
      ((max ⌊prev + p.refs c⌋ 0 : ℤ) : ℚ)
    else
      ((max ⌊prev + p.refs c - totalReduction p (i + 2) c + followUp p (i + 2) c⌋ 0 : ℤ) : ℚ)

/-- Series `patients_seen_per_week[c][i]` as a function of the array index `i`
(week `i + 1`); index `0` stays at its zero initialisation. -/
def sval (p : RunConfig) (c : Cat) : ℕ → ℚ
  | 0 => 0
  | i + 1 =>
    if (c = .P1 ∨ c = .P2) ∧ specialWeek p.strategy (i + 2) = true ∧
        p.strategy = rotatingStrategy then 0
    else totalReduction p (i + 2) c

/-- A week array of length `n` whose first `m` entries are finalised to `g`
and whose remaining entries still hold their zero initialisation. -/
def partialList (g : ℕ → ℚ) (n m : ℕ) : List ℚ :=
  (List.range n).map (fun idx => if idx < m then g idx else 0)

/-- The simulation state after the weeks with array index `< m` have been
computed. -/
def stateAt (p : RunConfig) (n m : ℕ) : SimState :=
  { backlog := fun c => partialList (bval p c) n m,
    seen := fun c => partialList (sval p c) n m }

lemma partialList_length (g : ℕ → ℚ) (n m : ℕ) : (partialList g n m).length = n := by
  simp [partialList]

lemma partialList_getD (g : ℕ → ℚ) (n m idx : ℕ) (h : idx < n) :
    (partialList g n m).getD idx 0 = if idx < m then g idx else 0 := by
  have hlen : idx < (partialList g n m).length := by simpa [partialList_length]
  rw [List.getD_eq_getElem _ _ hlen]
  simp [partialList]

lemma partialList_set (g : ℕ → ℚ) (n m : ℕ) (v : ℚ) (hm : m < n) (hv : v = g m) :
    (partialList g n m).set m v = partialList g n (m + 1) := by
  apply List.ext_getElem
  · simp [partialList]
  · intro i h1 h2
    have hi : i < n := by simpa [partialList_length] using h2
    rw [List.getElem_set]
    simp only [partialList, List.getElem_map, List.getElem_range]
    by_cases he : m = i
    · subst he
      simp [hv, hm]
    · have : i < m + 1 ↔ i < m := by omega
      simp [he, this]

lemma partialList_succ_of_zero (g : ℕ → ℚ) (n m : ℕ) (h : g m = 0) :
    partialList g n (m + 1) = partialList g n m := by
  apply List.ext_getElem
  · simp [partialList]
  · intro i h1 h2
    simp only [partialList, List.getElem_map, List.getElem_range]
    by_cases he : i = m
    · subst he
      simp [h]
    · have : i < m + 1 ↔ i < m := by omega
      simp [this]

lemma partialList_eq_replicate (g : ℕ → ℚ) (n m : ℕ) (h : ∀ idx, idx < m → g idx = 0) :
    partialList g n m = List.replicate n 0 := by
  apply List.ext_getElem
  · simp [partialList]
  · intro i h1 h2
    simp only [partialList, List.getElem_map, List.getElem_range, List.getElem_replicate]
    by_cases hi : i < m
    · simp [hi, h i hi]
    · simp [hi]

lemma partialList_full (g : ℕ → ℚ) (n : ℕ) : partialList g n n = (List.range n).map g := by
  apply List.ext_getElem
  · simp [partialList]
  · intro i h1 h2
    have hi : i < n := by simpa using h2
    simp [partialList, hi]

lemma replicate_set_eq_partialList (g : ℕ → ℚ) (n : ℕ) (v : ℚ) (hn : 1 ≤ n) (hv : v = g 0) :
    (List.replicate n (0 : ℚ)).set 0 v = partialList g n 1 := by
  apply List.ext_getElem
  · simp [partialList]
  · intro i h1 h2
    have hi : i < n := by simpa [partialList_length] using h2
    rw [List.getElem_set]
    simp only [partialList, List.getElem_map, List.getElem_range, List.getElem_replicate]
    by_cases he : i = 0
    · subst he
      simp [hv]
    · have h0 : ¬ (0 = i) := fun h => he h.symm
      have : ¬ (i < 1) := by omega
      simp [h0, this]

lemma mapRange_getD (g : ℕ → ℚ) (n idx : ℕ) (h : idx < n) :
    ((List.range n).map g).getD idx 0 = g idx := by
  have hlen : idx < ((List.range n).map g).length := by simpa
  rw [List.getD_eq_getElem _ _ hlen]
  simp

lemma categoryStep_ok (p : RunConfig) (n m : ℕ) (c : Cat) (st : SimState)
    (hm : 1 ≤ m) (hmn : m < n)
    (hb : st.backlog c = partialList (bval p c) n m)
    (hs : st.seen c = partialList (sval p c) n m)
    (hW : p.avgW c ≠ 0) :
    categoryStep p.strategy (specialWeek p.strategy (m + 1)) p.num_therapists
      p.sessions_per_week p.extra (fullMapQ p.refs) (fullMapQ p.avgS) (fullMapZ p.avgW)
      (m + 1) m st c =
      .ok { backlog := fun c2 =>
              if c2 = c then partialList (bval p c) n (m + 1) else st.backlog c2,
            seen := fun c2 =>
              if c2 = c then partialList (sval p c) n (m + 1) else st.seen c2 } := by
  obtain ⟨i, rfl⟩ : ∃ i, m = i + 1 := ⟨m - 1, by omega⟩
  have hmn2 : i + 1 < n := hmn
  have hprev : (st.backlog c).getD (i + 1 - 1) 0 = bval p c i := by
    rw [hb]
    have h0 : i + 1 - 1 = i := rfl
    rw [h0, partialList_getD _ _ _ _ (by omega)]
    simp
  have hbset : ∀ v, v = bval p c (i + 1) →
      (st.backlog c).set (i + 1) v = partialList (bval p c) n (i + 1 + 1) := by
    intro v hv
    rw [hb, partialList_set _ _ _ _ hmn2 hv]
  have hsset : ∀ v, v = sval p c (i + 1) →
      (st.seen c).set (i + 1) v = partialList (sval p c) n (i + 1 + 1) := by
    intro v hv
    rw [hs, partialList_set _ _ _ _ hmn2 hv]
  simp only [categoryStep, fullMapQ, fullMapZ]
  rw [if_neg hW]
  rw [hprev]
  by_cases h1 : c = Cat.P1 ∨ c = Cat.P2
  · rw [if_pos h1]
    by_cases h2 : specialWeek p.strategy (i + 1 + 1) = true ∧ p.strategy = rotatingStrategy
    · rw [if_pos h2]
      have hcond : (c = Cat.P1 ∨ c = Cat.P2) ∧
          specialWeek p.strategy (i + 2) = true ∧ p.strategy = rotatingStrategy := ⟨h1, h2⟩
      congr 1
      refine SimState.ext ?_ ?_
      · funext c2
        simp only [setEntry]
        by_cases hc : c2 = c
        · subst hc
          rw [if_pos rfl, if_pos rfl]
          refine hbset _ ?_
          rw [bval, if_pos hcond]
        · rw [if_neg hc, if_neg hc]
      · funext c2
        dsimp only
        by_cases hc : c2 = c
        · subst hc
          rw [if_pos rfl, partialList_succ_of_zero _ _ _ (by rw [sval, if_pos hcond])]
          exact hs
        · rw [if_neg hc]
    · rw [if_neg h2]
      have hcond : ¬ ((c = Cat.P1 ∨ c = Cat.P2) ∧
          specialWeek p.strategy (i + 2) = true ∧ p.strategy = rotatingStrategy) :=
        fun h => h2 h.2
      congr 1
      refine SimState.ext ?_ ?_
      · funext c2
        simp only [setEntry]
        by_cases hc : c2 = c
        · subst hc
          rw [if_pos rfl, if_pos rfl]
          refine hbset _ ?_
          rw [bval, if_neg hcond]
          simp only [totalReduction, followUp]
        · rw [if_neg hc, if_neg hc]
      · funext c2
        simp only [setEntry]
        by_cases hc : c2 = c
        · subst hc
          rw [if_pos rfl, if_pos rfl]
          refine hsset _ ?_
          rw [sval, if_neg hcond]
          simp only [totalReduction, followUp]
        · rw [if_neg hc, if_neg hc]
  · rw [if_neg h1]
    have hcond : ¬ ((c = Cat.P1 ∨ c = Cat.P2) ∧
        specialWeek p.strategy (i + 2) = true ∧ p.strategy = rotatingStrategy) :=
      fun h => h1 h.1
    congr 1
    refine SimState.ext ?_ ?_
    · funext c2
      simp only [setEntry]
      by_cases hc : c2 = c
      · subst hc
        rw [if_pos rfl, if_pos rfl]
        refine hbset _ ?_
        rw [bval, if_neg hcond]
        simp only [totalReduction, followUp]
      · rw [if_neg hc, if_neg hc]
    · funext c2
      simp only [setEntry]
      by_cases hc : c2 = c
      · subst hc
        rw [if_pos rfl, if_pos rfl]
        refine hsset _ ?_
        rw [sval, if_neg hcond]
        simp only [totalReduction, followUp]
      · rw [if_neg hc, if_neg hc]

lemma okBind {α β : Type} (a : α) (f : α → Except SimError β) :
    (Except.ok a >>= f) = f a := rfl

lemma errorBind {α β : Type} (e : SimError) (f : α → Except SimError β) :
    ((Except.error e : Except SimError α) >>= f) = .error e := rfl

lemma weekStep_ok (p : RunConfig) (n m : ℕ) (hm : 1 ≤ m) (hmn : m < n)
    (hW : ∀ c, p.avgW c ≠ 0) :
    weekStep p.strategy p.num_therapists p.sessions_per_week p.extra (fullMapQ p.refs)
      (fullMapQ p.avgS) (fullMapZ p.avgW) allCats (stateAt p n m) m
      = .ok (stateAt p n (m + 1)) := by
  simp only [weekStep, allCats]
  rw [List.foldlM_cons, categoryStep_ok p n m Cat.P1 _ hm hmn rfl rfl (hW _), okBind,
    List.foldlM_cons, categoryStep_ok p n m Cat.P2 _ hm hmn rfl rfl (hW _), okBind,
    List.foldlM_cons, categoryStep_ok p n m Cat.P3 _ hm hmn rfl rfl (hW _), okBind,
    List.foldlM_cons, categoryStep_ok p n m Cat.P4 _ hm hmn rfl rfl (hW _), okBind,
    List.foldlM_nil]
  refine congrArg Except.ok ?_
  refine SimState.ext ?_ ?_ <;> funext c2 <;> cases c2 <;> rfl

lemma loop_ok (p : RunConfig) (n : ℕ) (hW : ∀ c, p.avgW c ≠ 0) :
    ∀ (r m : ℕ), 1 ≤ m → m + r ≤ n →
      List.foldlM (weekStep p.strategy p.num_therapists p.sessions_per_week p.extra
          (fullMapQ p.refs) (fullMapQ p.avgS) (fullMapZ p.avgW) allCats)
        (stateAt p n m) (List.range' m r)
      = .ok (stateAt p n (m + r)) := by
  intro r
  induction r with
  | zero =>
    intro m hm hr
    rfl
  | succ r ih =>
    intro m hm hr
    rw [List.range'_succ, List.foldlM_cons, weekStep_ok p n m hm (by omega) hW, okBind,
      ih (m + 1) (by omega) (by omega)]
    have he : m + 1 + r = m + (r + 1) := by omega
    rw [he]

lemma init_ok (p : RunConfig) (n : ℕ) (hn : 1 ≤ n) :
    List.foldlM (fun (st : SimState) (pr : Cat × ℚ) =>
        if n = 0 then (Except.error SimError.indexError : Except SimError SimState)
        else Except.ok { st with backlog := setEntry st.backlog pr.1 0 pr.2 })
      ({ backlog := fun _ => List.replicate n 0, seen := fun _ => List.replicate n 0 } : SimState)
      (initList p.init)
      = .ok (stateAt p n 1) := by
  have h0 : ¬ (n = 0) := by omega
  simp only [initList, allCats, List.map_cons, List.map_nil]
  rw [List.foldlM_cons, if_neg h0, okBind,
    List.foldlM_cons, if_neg h0, okBind,
    List.foldlM_cons, if_neg h0, okBind,
    List.foldlM_cons, if_neg h0, okBind,
    List.foldlM_nil]
  refine congrArg Except.ok ?_
  refine SimState.ext ?_ ?_
  · funext c2
    cases c2
    · exact replicate_set_eq_partialList (bval p Cat.P1) n (p.init Cat.P1) hn rfl
    · exact replicate_set_eq_partialList (bval p Cat.P2) n (p.init Cat.P2) hn rfl
    · exact replicate_set_eq_partialList (bval p Cat.P3) n (p.init Cat.P3) hn rfl
    · exact replicate_set_eq_partialList (bval p Cat.P4) n (p.init Cat.P4) hn rfl
  · funext c2
    refine (partialList_eq_replicate (sval p c2) n 1 ?_).symm
    intro idx hidx
    have h1 : idx = 0 := by omega
    subst h1
    rfl

/-- Refinement: on a configuration whose four validation-relevant inputs are
positive, with every category present in every input dict and every
`avg_weeks_between_sessions` entry nonzero, `simulate_backlog_reduction`
returns exactly the per-category recurrences `bval` (backlog) and `sval`
(patients seen). -/
theorem simulate_eq_run (sk : SessionKey) (p : RunConfig) (n : ℕ)
    (hT : 0 < p.num_therapists) (hS : 0 < p.sessions_per_week) (hn : 1 ≤ n)
    (hW : ∀ c, p.avgW c ≠ 0)
    (hx : p.extra = (calculate_extra_sessions sk p.num_therapists (n : ℤ)).2.2) :
    simulate_backlog_reduction sk p.strategy p.num_therapists p.sessions_per_week
      (fullMapQ p.refs) n (initList p.init) (fullMapQ p.avgS) (fullMapZ p.avgW)
      = .ok { weeks := List.range' 1 n,
              backlog_projection := allCats.map (fun c => (c, (List.range n).map (bval p c))),
              patients_seen_per_week := allCats.map (fun c => (c, (List.range n).map (sval p c))) } := by
  have hkeys : (initList p.init).map Prod.fst = allCats := by
    simp [initList, allCats]
  simp only [simulate_backlog_reduction]
  rw [if_neg (by omega : ¬ p.num_therapists ≤ 0), if_neg (by omega : ¬ p.sessions_per_week ≤ 0)]
  rw [hkeys, ← hx]
  rw [init_ok p n hn, okBind]
  rw [loop_ok p n hW (n - 1) 1 (by omega) (by omega)]
  rw [okBind]
  have h1n : 1 + (n - 1) = n := by omega
  rw [h1n]
  refine congrArg Except.ok ?_
  simp only [stateAt, partialList_full]

lemma mem_assoc_map {f : Cat → List ℚ} {c : Cat} {l : List ℚ}
    (h : (c, l) ∈ allCats.map (fun c2 => (c2, f c2))) : l = f c := by
  simp only [allCats, List.map_cons, List.map_nil, List.mem_cons, List.not_mem_nil,
    or_false, Prod.mk.injEq] at h
  rcases h with ⟨rfl, rfl⟩ | ⟨rfl, rfl⟩ | ⟨rfl, rfl⟩ | ⟨rfl, rfl⟩ <;> rfl

/-- The `RunConfig` corresponding to a fully-populated call of
`simulate_backlog_reduction`. -/
def mkRun (sk : SessionKey) (strategy : String) (T S : ℤ) (n : ℕ)
    (refs avgS init : Cat → ℚ) (avgW : Cat → ℤ) : RunConfig :=
  { strategy := strategy, num_therapists := T, sessions_per_week := S,
    extra := (calculate_extra_sessions sk T (n : ℤ)).2.2,
    refs := refs, avgS := avgS, avgW := avgW, init := init }

lemma output_backlog_eq (sk : SessionKey) (strategy : String) (T S : ℤ) (n : ℕ)
    (refs avgS init : Cat → ℚ) (avgW : Cat → ℤ) (out : SimOutput)
    (hT : 0 < T) (hS : 0 < S) (hn : 1 ≤ n) (hW : ∀ c, avgW c ≠ 0)
    (hout : simulate_backlog_reduction sk strategy T S (fullMapQ refs) n (initList init)
      (fullMapQ avgS) (fullMapZ avgW) = .ok out)
    (c : Cat) (l : List ℚ) (hm : (c, l) ∈ out.backlog_projection) :
    l = (List.range n).map (bval (mkRun sk strategy T S n refs avgS init avgW) c) := by
  have hrun := simulate_eq_run sk (mkRun sk strategy T S n refs avgS init avgW) n hT hS hn hW rfl
  have hok : Except.ok (ε := SimError) out =
      .ok { weeks := List.range' 1 n,
            backlog_projection := allCats.map
              (fun c2 => (c2, (List.range n).map (bval (mkRun sk strategy T S n refs avgS init avgW) c2))),
            patients_seen_per_week := allCats.map
              (fun c2 => (c2, (List.range n).map (sval (mkRun sk strategy T S n refs avgS init avgW) c2))) } :=
    hout.symm.trans hrun
  have hout2 := Except.ok.inj hok
  subst hout2
  dsimp only at hm
  exact mem_assoc_map hm

lemma output_seen_eq (sk : SessionKey) (strategy : String) (T S : ℤ) (n : ℕ)
    (refs avgS init : Cat → ℚ) (avgW : Cat → ℤ) (out : SimOutput)
    (hT : 0 < T) (hS : 0 < S) (hn : 1 ≤ n) (hW : ∀ c, avgW c ≠ 0)
    (hout : simulate_backlog_reduction sk strategy T S (fullMapQ refs) n (initList init)
      (fullMapQ avgS) (fullMapZ avgW) = .ok out)
    (c : Cat) (l : List ℚ) (hm : (c, l) ∈ out.patients_seen_per_week) :
    l = (List.range n).map (sval (mkRun sk strategy T S n refs avgS init avgW) c) := by
  have hrun := simulate_eq_run sk (mkRun sk strategy T S n refs avgS init avgW) n hT hS hn hW rfl
  have hok : Except.ok (ε := SimError) out =
      .ok { weeks := List.range' 1 n,
            backlog_projection := allCats.map
              (fun c2 => (c2, (List.range n).map (bval (mkRun sk strategy T S n refs avgS init avgW) c2))),
            patients_seen_per_week := allCats.map
              (fun c2 => (c2, (List.range n).map (sval (mkRun sk strategy T S n refs avgS init avgW) c2))) } :=
    hout.symm.trans hrun
  have hout2 := Except.ok.inj hok
  subst hout2
  dsimp only at hm
  exact mem_assoc_map hm

lemma intCast_max_zero (z : ℤ) : ((max z 0 : ℤ) : ℚ) = (((max z 0).toNat : ℕ) : ℚ) := by
  have h : (((max z 0).toNat : ℕ) : ℤ) = max z 0 := Int.toNat_of_nonneg (le_max_right z 0)
  conv_lhs => rw [← h]
  push_cast
  ring

lemma bval_succ_nat (p : RunConfig) (c : Cat) (i : ℕ) :
    ∃ k : ℕ, bval p c (i + 1) = (k : ℚ) := by
  rw [bval]
  split
  · exact ⟨(max ⌊bval p c i + p.refs c⌋ 0).toNat, intCast_max_zero _⟩
  · exact ⟨(max ⌊bval p c i + p.refs c - totalReduction p (i + 2) c +
      followUp p (i + 2) c⌋ 0).toNat, intCast_max_zero _⟩

/-- C1: for valid input (non-negative integer initial backlog counts and a
configuration that passes validation), every entry of every category's
`backlog_projection` series returned by `simulate_backlog_reduction` is a
non-negative integer (`0 ≤ x` and `x` is fixed by its own floor). -/
theorem C1_backlog_nonneg_integer (sk : SessionKey) (strategy : String)
    (T S : ℤ) (n : ℕ) (refs avgS init : Cat → ℚ) (avgW : Cat → ℤ)
    (hT : 0 < T) (hS : 0 < S) (hn : 1 ≤ n) (hW : ∀ c, 0 < avgW c)
    (hinit : ∀ c, ∃ k : ℕ, init c = (k : ℚ))
    (out : SimOutput)
    (hout : simulate_backlog_reduction sk strategy T S (fullMapQ refs) n (initList init)
      (fullMapQ avgS) (fullMapZ avgW) = .ok out)
    (c : Cat) (l : List ℚ) (hm : (c, l) ∈ out.backlog_projection)
    (x : ℚ) (hx : x ∈ l) :
    0 ≤ x ∧ ((⌊x⌋ : ℤ) : ℚ) = x := by
  have hl := output_backlog_eq sk strategy T S n refs avgS init avgW out hT hS hn
    (fun c2 => (hW c2).ne') hout c l hm
  subst hl
  obtain ⟨idx, hidx, rfl⟩ := List.mem_map.mp hx
  have hk : ∃ k : ℕ, bval (mkRun sk strategy T S n refs avgS init avgW) c idx = (k : ℚ) := by
    cases idx with
    | zero => exact hinit c
    | succ i => exact bval_succ_nat _ c i
  obtain ⟨k, hk⟩ := hk
  rw [hk]
  constructor
  · exact Nat.cast_nonneg k
  · simp

unseal Rat.add Rat.mul Rat.sub Rat.inv in
theorem C1_backlog_nonneg_integer_witness :
    (0 : ℚ) ≤ 10 ∧ ((⌊(10 : ℚ)⌋ : ℤ) : ℚ) = 10 :=
  C1_backlog_nonneg_integer .min60 evenSplitStrategy 1 4 2 (fun _ => 1) (fun _ => 2)
    (fun c => match c with | .P1 => 10 | .P2 => 5 | .P3 => 3 | .P4 => 2) (fun _ => 5)
    (by decide) (by decide) (by decide) (fun c => by cases c <;> decide)
    (fun c => by cases c <;> exact ⟨_, rfl⟩)
    ⟨[1, 2], [(.P1, [10, 10]), (.P2, [5, 5]), (.P3, [3, 3]), (.P4, [2, 2])],
     [(.P1, [0, 1]), (.P2, [0, 1]), (.P3, [0, 1]), (.P4, [0, 1])]⟩
    (by decide) Cat.P1 [10, 10] (by decide) 10 (by decide)

lemma sval_rot_skip (p : RunConfig) (c : Cat) (idx : ℕ)
    (hstrat : p.strategy = rotatingStrategy)
    (hc : c = Cat.P1 ∨ c = Cat.P2) (hsp : (idx + 1) % 4 = 0) :
    sval p c idx = 0 := by
  cases idx with
  | zero => rfl
  | succ i =>
    rw [sval, if_pos ?_]
    refine ⟨hc, ?_, hstrat⟩
    simp only [specialWeek, decide_eq_true_eq]
    exact ⟨hstrat, hsp⟩

lemma bval_rot_skip (p : RunConfig) (c : Cat) (i : ℕ)
    (hstrat : p.strategy = rotatingStrategy) (hc : c = Cat.P1 ∨ c = Cat.P2)
    (hsp : (i + 2) % 4 = 0) :
    bval p c (i + 1) = ((max ⌊bval p c i + p.refs c⌋ 0 : ℤ) : ℚ) := by
  rw [bval, if_pos ?_]
  refine ⟨hc, ?_, hstrat⟩
  simp only [specialWeek, decide_eq_true_eq]
  exact ⟨hstrat, hsp⟩

lemma sval_rot_special_p34 (p : RunConfig) (c : Cat) (i : ℕ)
    (hstrat : p.strategy = rotatingStrategy) (hc : c = Cat.P3 ∨ c = Cat.P4)
    (hsp : (i + 2) % 4 = 0) :
    sval p c (i + 1) = ((p.sessions_per_week * p.num_therapists : ℤ) : ℚ) * (1 / 2) +
      (p.extra : ℚ) * (1 / 2) := by
  have hspec : specialWeek p.strategy (i + 2) = true := by
    simp only [specialWeek, decide_eq_true_eq]
    exact ⟨hstrat, hsp⟩
  rw [sval, if_neg (by
    rintro ⟨h, _⟩
    rcases hc with rfl | rfl <;> rcases h with h | h <;> exact Cat.noConfusion h)]
  have hspec2 : specialWeek rotatingStrategy (i + 2) = true := by
    rw [← hstrat]
    exact hspec
  rcases hc with rfl | rfl <;>
    simp [totalReduction, hstrat, hspec2, allocationFor]

/-- C4: under the RotatingP3P4 strategy, for every week whose week number is
divisible by 4 (`is_special_week`), the `patients_seen_per_week` entries of
categories P1 and P2 are `0` (array index `idx` holds week `idx + 1`). -/
theorem C4_rotating_skip_patients_seen (sk : SessionKey) (T S : ℤ) (n : ℕ)
    (refs avgS init : Cat → ℚ) (avgW : Cat → ℤ)
    (hT : 0 < T) (hS : 0 < S) (hn : 1 ≤ n) (hW : ∀ c, 0 < avgW c)
    (out : SimOutput)
    (hout : simulate_backlog_reduction sk rotatingStrategy T S (fullMapQ refs) n
      (initList init) (fullMapQ avgS) (fullMapZ avgW) = .ok out)
    (c : Cat) (l : List ℚ) (hm : (c, l) ∈ out.patients_seen_per_week)
    (hc : c = Cat.P1 ∨ c = Cat.P2)
    (idx : ℕ) (hidx : idx < n) (hsp : (idx + 1) % 4 = 0) :
    l.getD idx 0 = 0 := by
  have hl := output_seen_eq sk rotatingStrategy T S n refs avgS init avgW out hT hS hn
    (fun c2 => (hW c2).ne') hout c l hm
  subst hl
  rw [mapRange_getD _ _ _ hidx]
  exact sval_rot_skip _ c idx rfl hc hsp

unseal Rat.add Rat.mul Rat.sub Rat.inv in
theorem C4_rotating_skip_patients_seen_witness :
    ([0, 2, 2, 0] : List ℚ).getD 3 0 = 0 :=
  C4_rotating_skip_patients_seen .min60 1 4 4 (fun _ => 1) (fun _ => 2)
    (fun c => match c with | .P1 => 10 | .P2 => 5 | .P3 => 3 | .P4 => 2) (fun _ => 5)
    (by decide) (by decide) (by decide) (fun c => by cases c <;> decide)
    ⟨[1, 2, 3, 4],
     [(.P1, [10, 9, 8, 9]), (.P2, [5, 4, 3, 4]), (.P3, [3, 4, 5, 4]), (.P4, [2, 3, 4, 3])],
     [(.P1, [0, 2, 2, 0]), (.P2, [0, 2, 2, 0]), (.P3, [0, 0, 0, 2]), (.P4, [0, 0, 0, 2])]⟩
    (by decide) Cat.P1 [0, 2, 2, 0] (by decide) (Or.inl rfl) 3 (by decide) (by decide)

/-- C3 (amended): under the RotatingP3P4 strategy, at a special week the P1/P2
backlog entry equals `max(floor(previous + new_referrals), 0)` — the previous
backlog plus that category's referrals with the loop's universal
floor-and-clamp applied, and no session deduction or follow-up term — while
P3/P4 are credited the full base-plus-extra reduction
(`0.5 * base_weekly_sessions + 0.5 * extra_sessions_per_week`) in
`patients_seen_per_week`. -/
theorem C3_rotating_special_week_amended (sk : SessionKey) (T S : ℤ) (n : ℕ)
    (refs avgS init : Cat → ℚ) (avgW : Cat → ℤ)
    (hT : 0 < T) (hS : 0 < S) (hn : 1 ≤ n) (hW : ∀ c, 0 < avgW c)
    (out : SimOutput)
    (hout : simulate_backlog_reduction sk rotatingStrategy T S (fullMapQ refs) n
      (initList init) (fullMapQ avgS) (fullMapZ avgW) = .ok out)
    (c1 : Cat) (l1 : List ℚ) (hm1 : (c1, l1) ∈ out.backlog_projection)
    (hc1 : c1 = Cat.P1 ∨ c1 = Cat.P2)
    (c2 : Cat) (l2 : List ℚ) (hm2 : (c2, l2) ∈ out.patients_seen_per_week)
    (hc2 : c2 = Cat.P3 ∨ c2 = Cat.P4)
    (idx : ℕ) (hidx : idx < n) (hsp : (idx + 1) % 4 = 0) :
    l1.getD idx 0 = ((max ⌊l1.getD (idx - 1) 0 + refs c1⌋ 0 : ℤ) : ℚ) ∧
    l2.getD idx 0 = ((S * T : ℤ) : ℚ) * (1 / 2) +
      (((calculate_extra_sessions sk T (n : ℤ)).2.2 : ℤ) : ℚ) * (1 / 2) := by
  have hl1 := output_backlog_eq sk rotatingStrategy T S n refs avgS init avgW out hT hS hn
    (fun c2 => (hW c2).ne') hout c1 l1 hm1
  have hl2 := output_seen_eq sk rotatingStrategy T S n refs avgS init avgW out hT hS hn
    (fun c2 => (hW c2).ne') hout c2 l2 hm2
  subst hl1
  subst hl2
  obtain ⟨j, rfl⟩ : ∃ j, idx = j + 1 := ⟨idx - 1, by omega⟩
  rw [mapRange_getD _ _ _ hidx, mapRange_getD _ _ _ hidx]
  simp only [Nat.add_sub_cancel]
  rw [mapRange_getD _ _ _ (by omega)]
  have hsp2 : (j + 2) % 4 = 0 := hsp
  constructor
  · exact bval_rot_skip (mkRun sk rotatingStrategy T S n refs avgS init avgW) c1 j rfl hc1 hsp2
  · exact sval_rot_special_p34 (mkRun sk rotatingStrategy T S n refs avgS init avgW) c2 j rfl hc2 hsp2

unseal Rat.add Rat.mul Rat.sub Rat.inv in
theorem C3_rotating_special_week_amended_witness :
    ([10, 9, 8, 9] : List ℚ).getD 3 0 =
      ((max ⌊([10, 9, 8, 9] : List ℚ).getD (3 - 1) 0 + (1 : ℚ)⌋ 0 : ℤ) : ℚ) ∧
    ([0, 0, 0, 2] : List ℚ).getD 3 0 = ((4 * 1 : ℤ) : ℚ) * (1 / 2) +
      (((calculate_extra_sessions .min60 1 (4 : ℤ)).2.2 : ℤ) : ℚ) * (1 / 2) :=
  C3_rotating_special_week_amended .min60 1 4 4 (fun _ => 1) (fun _ => 2)
    (fun c => match c with | .P1 => 10 | .P2 => 5 | .P3 => 3 | .P4 => 2) (fun _ => 5)
    (by decide) (by decide) (by decide) (fun c => by cases c <;> decide)
    ⟨[1, 2, 3, 4],
     [(.P1, [10, 9, 8, 9]), (.P2, [5, 4, 3, 4]), (.P3, [3, 4, 5, 4]), (.P4, [2, 3, 4, 3])],
     [(.P1, [0, 2, 2, 0]), (.P2, [0, 2, 2, 0]), (.P3, [0, 0, 0, 2]), (.P4, [0, 0, 0, 2])]⟩
    (by decide) Cat.P1 [10, 9, 8, 9] (by decide) (Or.inl rfl)
    Cat.P3 [0, 0, 0, 2] (by decide) (Or.inl rfl) 3 (by decide) (by decide)

unseal Rat.add Rat.mul Rat.sub Rat.inv in
theorem C3_rotating_special_week_counterexample :
    ((simulate_backlog_reduction .min60 rotatingStrategy 1 4
        (fullMapQ fun c => match c with | .P1 => 3 / 2 | _ => 0) 4
        (initList fun c => match c with | .P1 => 10 | _ => 0)
        (fullMapQ fun _ => 2) (fullMapZ fun _ => 10)).map
      (fun o => o.backlog_projection)) =
      .ok [(.P1, [10, 9, 8, 9]), (.P2, [0, 0, 0, 0]), (.P3, [0, 0, 0, 0]), (.P4, [0, 0, 0, 0])] ∧
    (9 : ℚ) ≠ 8 + 3 / 2 := by
  exact ⟨by decide, by decide⟩

lemma bval_urgency_mono (p : RunConfig) (c : Cat) (i : ℕ)
    (hstrat : p.strategy = urgencyStrategy)
    (hc : c = Cat.P3 ∨ c = Cat.P4)
    (hrefs : 0 ≤ p.refs c) (havgS : 1 ≤ p.avgS c)
    (hprev : ∃ k : ℕ, bval p c i = (k : ℚ)) :
    bval p c i ≤ bval p c (i + 1) := by
  obtain ⟨k, hk⟩ := hprev
  have hrotne : p.strategy ≠ rotatingStrategy := by
    rw [hstrat]
    decide
  rw [bval, if_neg (by
    rintro ⟨h, _⟩
    rcases hc with rfl | rfl <;> rcases h with h | h <;> exact Cat.noConfusion h)]
  have htr : totalReduction p (i + 2) c = 0 := by
    have hspec : specialWeek p.strategy (i + 2) = false := by
      simp [specialWeek, hrotne]
    have hspec2 : specialWeek urgencyStrategy (i + 2) = false := by
      rw [← hstrat]
      exact hspec
    have hne1 : ¬ (urgencyStrategy = rotatingStrategy) := by decide
    have hne2 : ¬ (urgencyStrategy = evenSplitStrategy) := by decide
    rcases hc with rfl | rfl <;>
      simp [totalReduction, hstrat, hspec2, allocationFor, hne1, hne2]
  have hfu : 0 ≤ followUp p (i + 2) c := by
    rw [followUp]
    split
    · have h1 : (0 : ℚ) ≤ p.avgS c - 1 := by linarith
      exact mul_nonneg hrefs h1
    · exact le_refl 0
  rw [htr, hk]
  have h1 : (k : ℤ) ≤ ⌊(k : ℚ) + p.refs c - 0 + followUp p (i + 2) c⌋ := by
    rw [Int.le_floor]
    push_cast
    linarith
  have h2 : (k : ℤ) ≤ max ⌊(k : ℚ) + p.refs c - 0 + followUp p (i + 2) c⌋ 0 :=
    le_trans h1 (le_max_left _ _)
  exact_mod_cast h2

/-- C6: under the Urgency-Weighted strategy (allocation 0 to P3 and P4 every
week), the P3/P4 backlog series is weakly increasing: each entry is at least
the previous week's entry, for non-negative referral rates and a valid
positive configuration. -/
theorem C6_urgency_p34_monotone (sk : SessionKey) (T S : ℤ) (n : ℕ)
    (refs avgS init : Cat → ℚ) (avgW : Cat → ℤ)
    (hT : 0 < T) (hS : 0 < S) (hn : 1 ≤ n) (hW : ∀ c, 0 < avgW c)
    (hrefs : ∀ c, 0 ≤ refs c) (havgS : ∀ c, 1 ≤ avgS c)
    (hinit : ∀ c, ∃ k : ℕ, init c = (k : ℚ))
    (out : SimOutput)
    (hout : simulate_backlog_reduction sk urgencyStrategy T S (fullMapQ refs) n
      (initList init) (fullMapQ avgS) (fullMapZ avgW) = .ok out)
    (c : Cat) (l : List ℚ) (hm : (c, l) ∈ out.backlog_projection)
    (hc : c = Cat.P3 ∨ c = Cat.P4)
    (idx : ℕ) (hidx : idx + 1 < n) :
    l.getD idx 0 ≤ l.getD (idx + 1) 0 := by
  have hl := output_backlog_eq sk urgencyStrategy T S n refs avgS init avgW out hT hS hn
    (fun c2 => (hW c2).ne') hout c l hm
  subst hl
  rw [mapRange_getD _ _ _ (by omega), mapRange_getD _ _ _ hidx]
  refine bval_urgency_mono (mkRun sk urgencyStrategy T S n refs avgS init avgW) c idx rfl hc
    (hrefs c) (havgS c) ?_
  cases idx with
  | zero => exact hinit c
  | succ j => exact bval_succ_nat _ c j

unseal Rat.add Rat.mul Rat.sub Rat.inv in
theorem C6_urgency_p34_monotone_witness :
    ([3, 4] : List ℚ).getD 0 0 ≤ ([3, 4] : List ℚ).getD 1 0 :=
  C6_urgency_p34_monotone .min60 1 4 2 (fun _ => 1) (fun _ => 2)
    (fun c => match c with | .P1 => 10 | .P2 => 5 | .P3 => 3 | .P4 => 2) (fun _ => 5)
    (by decide) (by decide) (by decide) (fun c => by cases c <;> decide)
    (fun c => by cases c <;> decide) (fun c => by cases c <;> decide)
    (fun c => by cases c <;> exact ⟨_, rfl⟩)
    ⟨[1, 2], [(.P1, [10, 9]), (.P2, [5, 4]), (.P3, [3, 4]), (.P4, [2, 3])],
     [(.P1, [0, 2]), (.P2, [0, 6 / 5]), (.P3, [0, 0]), (.P4, [0, 0])]⟩
    (by decide) Cat.P3 [3, 4] (by decide) (Or.inl rfl) 0 (by decide)

/-- C5: `calculate_extra_sessions` computes
`extra_per_day = sessions_per_day(duration) - sessions_per_day(60)`,
`extra_per_week = extra_per_day * 5 * num_therapists`,
`total = extra_per_week * num_weeks` (returned as `(total, per_day, per_week)`);
in particular `("50 min", 2, 4) = (40, 1, 10)` and `("44 min", 1, 1) = (10, 2, 10)`. -/
theorem C5_calculate_extra_sessions_formula :
    (∀ (sk : SessionKey) (T W : ℤ),
      calculate_extra_sessions sk T W =
        (((sessions_per_day sk : ℤ) - (sessions_per_day .min60 : ℤ)) * 5 * T * W,
         (sessions_per_day sk : ℤ) - (sessions_per_day .min60 : ℤ),
         ((sessions_per_day sk : ℤ) - (sessions_per_day .min60 : ℤ)) * 5 * T)) ∧
    calculate_extra_sessions .min50 2 4 = (40, 1, 10) ∧
    calculate_extra_sessions .min44 1 1 = (10, 2, 10) := by
  refine ⟨fun sk T W => ?_, by decide, by decide⟩
  cases sk <;>
    simp [calculate_extra_sessions, sessions_per_day, duration, WORK_DAY_MINUTES,
      WORK_DAYS_PER_WEEK]

/-- C7 (amended): for every week, EvenSplit's four allocation fractions sum to
`1`; RotatingP3P4's two active fractions (P3/P4 on a special week, P1/P2
otherwise) sum to `1`; but UrgencyWeighted's fractions sum to `4/5 = 0.8`,
not `1` (allocation `P1 0.5, P2 0.3, P3 0, P4 0`). -/
theorem C7_allocation_sum_amended (wn : ℕ) :
    (allocationFor evenSplitStrategy (specialWeek evenSplitStrategy wn) Cat.P1 +
     allocationFor evenSplitStrategy (specialWeek evenSplitStrategy wn) Cat.P2 +
     allocationFor evenSplitStrategy (specialWeek evenSplitStrategy wn) Cat.P3 +
     allocationFor evenSplitStrategy (specialWeek evenSplitStrategy wn) Cat.P4 = 1) ∧
    ((if specialWeek rotatingStrategy wn = true then
        allocationFor rotatingStrategy (specialWeek rotatingStrategy wn) Cat.P3 +
        allocationFor rotatingStrategy (specialWeek rotatingStrategy wn) Cat.P4
      else
        allocationFor rotatingStrategy (specialWeek rotatingStrategy wn) Cat.P1 +
        allocationFor rotatingStrategy (specialWeek rotatingStrategy wn) Cat.P2) = 1) ∧
    (allocationFor urgencyStrategy (specialWeek urgencyStrategy wn) Cat.P1 +
     allocationFor urgencyStrategy (specialWeek urgencyStrategy wn) Cat.P2 +
     allocationFor urgencyStrategy (specialWeek urgencyStrategy wn) Cat.P3 +
     allocationFor urgencyStrategy (specialWeek urgencyStrategy wn) Cat.P4 = 4 / 5) := by
  have hne0 : ¬ (evenSplitStrategy = rotatingStrategy) := by decide
  have hne1 : ¬ (urgencyStrategy = rotatingStrategy) := by decide
  have hne2 : ¬ (urgencyStrategy = evenSplitStrategy) := by decide
  refine ⟨?_, ?_, ?_⟩
  · simp [allocationFor, hne0]
    norm_num
  · cases hb : specialWeek rotatingStrategy wn <;> simp [allocationFor, hb] <;> norm_num
  · simp [allocationFor, hne1, hne2]
    norm_num

unseal Rat.add Rat.mul Rat.sub Rat.inv in
theorem C7_allocation_sum_counterexample :
    allocationFor urgencyStrategy (specialWeek urgencyStrategy 2) Cat.P1 +
    allocationFor urgencyStrategy (specialWeek urgencyStrategy 2) Cat.P2 +
    allocationFor urgencyStrategy (specialWeek urgencyStrategy 2) Cat.P3 +
    allocationFor urgencyStrategy (specialWeek urgencyStrategy 2) Cat.P4 ≠ 1 := by
  decide

/-- C9 (amended): `calculate_extra_sessions` performs no input validation; it
is total and returns the same arithmetic tuple even when `num_therapists ≤ 0`
or `num_weeks ≤ 0`, instead of failing. -/
theorem C9_no_validation_amended (sk : SessionKey) (T W : ℤ)
    (h : T ≤ 0 ∨ W ≤ 0) :
    calculate_extra_sessions sk T W =
      (((sessions_per_day sk : ℤ) - (sessions_per_day .min60 : ℤ)) * 5 * T * W,
       (sessions_per_day sk : ℤ) - (sessions_per_day .min60 : ℤ),
       ((sessions_per_day sk : ℤ) - (sessions_per_day .min60 : ℤ)) * 5 * T) := by
  cases sk <;>
    simp [calculate_extra_sessions, sessions_per_day, duration, WORK_DAY_MINUTES,
      WORK_DAYS_PER_WEEK]

theorem C9_no_validation_amended_witness :
    calculate_extra_sessions .min50 0 4 = (0, 1, 0) :=
  (C9_no_validation_amended .min50 0 4 (Or.inl le_rfl)).trans (by decide)

theorem C9_counterexample :
    calculate_extra_sessions .min50 (-3) 2 = (-30, 1, -15) := by
  decide

lemma categoryStep_error_cases (strategy : String) (b : Bool) (T S x : ℤ)
    (refs avgS : Cat → Option ℚ) (avgW : Cat → Option ℤ) (wn i : ℕ)
    (st : SimState) (c : Cat) (e : SimError)
    (h : categoryStep strategy b T S x refs avgS avgW wn i st c = .error e) :
    (∃ c2, e = .keyError c2) ∨ e = .zeroDivisionError := by
  unfold categoryStep at h
  cases hr : refs c with
  | none =>
    rw [hr] at h
    exact Or.inl ⟨c, (Except.error.inj h).symm⟩
  | some r =>
    rw [hr] at h
    dsimp only at h
    cases ha : avgS c with
    | none =>
      rw [ha] at h
      exact Or.inl ⟨c, (Except.error.inj h).symm⟩
    | some a =>
      rw [ha] at h
      dsimp only at h
      cases hw : avgW c with
      | none =>
        rw [hw] at h
        exact Or.inl ⟨c, (Except.error.inj h).symm⟩
      | some w =>
        rw [hw] at h
        dsimp only at h
        by_cases hw0 : w = 0
        · rw [if_pos hw0] at h
          exact Or.inr (Except.error.inj h).symm
        · rw [if_neg hw0] at h
          by_cases hP : c = Cat.P1 ∨ c = Cat.P2
          · rw [if_pos hP] at h
            by_cases hsp : b = true ∧ strategy = rotatingStrategy
            · rw [if_pos hsp] at h
              exact absurd h (by simp)
            · rw [if_neg hsp] at h
              exact absurd h (by simp)
          · rw [if_neg hP] at h
            exact absurd h (by simp)

lemma foldlM_error_prop {α β : Type} (f : β → α → Except SimError β) (P : SimError → Prop)
    (hf : ∀ b a e, f b a = .error e → P e) :
    ∀ (l : List α) (b : β) (e : SimError), List.foldlM f b l = .error e → P e := by
  intro l
  induction l with
  | nil =>
    intro b e h
    rw [List.foldlM_nil] at h
    exact Except.noConfusion h
  | cons a l ih =>
    intro b e h
    rw [List.foldlM_cons] at h
    cases hfa : f b a with
    | error e2 =>
      rw [hfa, errorBind] at h
      exact hf b a e (by rw [hfa, Except.error.inj h])
    | ok b2 =>
      rw [hfa, okBind] at h
      exact ih b2 e h

lemma weekStep_error_cases (strategy : String) (T S x : ℤ)
    (refs avgS : Cat → Option ℚ) (avgW : Cat → Option ℤ) (keys : List Cat)
    (st : SimState) (i : ℕ) (e : SimError)
    (h : weekStep strategy T S x refs avgS avgW keys st i = .error e) :
    (∃ c2, e = .keyError c2) ∨ e = .zeroDivisionError := by
  unfold weekStep at h
  exact foldlM_error_prop _ _
    (fun b a e2 h2 => categoryStep_error_cases _ _ _ _ _ _ _ _ _ _ _ _ _ h2) keys st e h

/-- C2 (amended): `simulate_backlog_reduction` raises `InvalidConfiguration`
(the `ValueError`s of src/Transcribe.py lines 128-131) exactly when
`num_therapists ≤ 0` or `sessions_per_therapist_per_week ≤ 0`, and it does so
before any week is computed; `avg_sessions_per_category` and
`avg_weeks_between_sessions` are never validated and cannot trigger this
error. -/
theorem C2_invalid_configuration_amended (sk : SessionKey) (strategy : String)
    (T S : ℤ) (refs avgS : Cat → Option ℚ) (n : ℕ) (bi : List (Cat × ℚ))
    (avgW : Cat → Option ℤ) :
    (∃ msg, simulate_backlog_reduction sk strategy T S refs n bi avgS avgW
      = .error (.invalidConfiguration msg)) ↔ (T ≤ 0 ∨ S ≤ 0) := by
  constructor
  · rintro ⟨msg, h⟩
    by_contra hcon
    push_neg at hcon
    obtain ⟨hT, hS⟩ := hcon
    rw [simulate_backlog_reduction] at h
    rw [if_neg (by omega : ¬ T ≤ 0), if_neg (by omega : ¬ S ≤ 0)] at h
    dsimp only at h
    cases hinit : List.foldlM (fun (st : SimState) (p : Cat × ℚ) =>
        if n = 0 then (Except.error SimError.indexError : Except SimError SimState)
        else Except.ok { st with backlog := setEntry st.backlog p.1 0 p.2 })
      ({ backlog := fun _ => List.replicate n 0, seen := fun _ => List.replicate n 0 } : SimState)
      bi with
    | error e =>
      rw [hinit, errorBind] at h
      have he : e = .indexError := by
        refine foldlM_error_prop _ (fun e2 => e2 = .indexError) ?_ bi _ e hinit
        intro b a e2 h2
        by_cases h0 : n = 0
        · rw [if_pos h0] at h2
          exact (Except.error.inj h2).symm
        · rw [if_neg h0] at h2
          exact absurd h2 (by simp)
      rw [he] at h
      exact SimError.noConfusion (Except.error.inj h)
    | ok st1 =>
      rw [hinit, okBind] at h
      cases hloop : List.foldlM (weekStep strategy T S
          ((calculate_extra_sessions sk T (n : ℤ)).2.2) refs avgS avgW
          (bi.map Prod.fst)) st1 (List.range' 1 (n - 1)) with
      | error e =>
        rw [hloop, errorBind] at h
        have he := foldlM_error_prop _ _
          (fun b a e2 h2 => weekStep_error_cases _ _ _ _ _ _ _ _ _ _ _ h2)
          (List.range' 1 (n - 1)) st1 e hloop
        have he2 := Except.error.inj h
        rcases he with ⟨c2, rfl⟩ | rfl <;> exact SimError.noConfusion he2
      | ok st2 =>
        rw [hloop, okBind] at h
        exact Except.noConfusion h
  · intro h
    rw [simulate_backlog_reduction]
    by_cases hT : T ≤ 0
    · exact ⟨"Number of therapists must be greater than 0", by rw [if_pos hT]⟩
    · have hS : S ≤ 0 := h.resolve_left hT
      exact ⟨"Sessions per therapist must be greater than 0", by
        rw [if_neg hT, if_pos hS]⟩

unseal Rat.add Rat.mul Rat.sub Rat.inv in
theorem C2_invalid_configuration_counterexample :
    (simulate_backlog_reduction .min60 urgencyStrategy 1 1 (fullMapQ fun _ => 1) 2
      (initList fun _ => 1)
      (fullMapQ fun c => match c with | .P1 => 0 | _ => 2)
      (fullMapZ fun _ => 1)).isOk = true := by
  decide

lemma categoryStep_keyError (strategy : String) (b : Bool) (T S x : ℤ)
    (refs avgS : Cat → Option ℚ) (avgW : Cat → Option ℤ) (wn i : ℕ)
    (st : SimState) (c : Cat)
    (hmiss : refs c = none ∨ avgS c = none ∨ avgW c = none) :
    categoryStep strategy b T S x refs avgS avgW wn i st c = .error (.keyError c) := by
  unfold categoryStep
  cases hr : refs c with
  | none => rfl
  | some r =>
    dsimp only
    cases ha : avgS c with
    | none => rfl
    | some a =>
      dsimp only
      cases hw : avgW c with
      | none => rfl
      | some w =>
        rcases hmiss with h | h | h
        · rw [h] at hr
          exact Option.noConfusion hr
        · rw [h] at ha
          exact Option.noConfusion ha
        · rw [h] at hw
          exact Option.noConfusion hw

lemma categoryStep_exists_ok (strategy : String) (b : Bool) (T S x : ℤ)
    (refs avgS : Cat → Option ℚ) (avgW : Cat → Option ℤ) (wn i : ℕ)
    (st : SimState) (c : Cat)
    (h1 : ∃ r, refs c = some r) (h2 : ∃ a, avgS c = some a)
    (h3 : ∃ w, avgW c = some w ∧ w ≠ 0) :
    ∃ st2, categoryStep strategy b T S x refs avgS avgW wn i st c = .ok st2 := by
  obtain ⟨r, hr⟩ := h1
  obtain ⟨a, ha⟩ := h2
  obtain ⟨w, hw, hw0⟩ := h3
  unfold categoryStep
  rw [hr]
  dsimp only
  rw [ha]
  dsimp only
  rw [hw]
  dsimp only
  rw [if_neg hw0]
  by_cases hP : c = Cat.P1 ∨ c = Cat.P2
  · rw [if_pos hP]
    by_cases hsp : b = true ∧ strategy = rotatingStrategy
    · rw [if_pos hsp]
      exact ⟨_, rfl⟩
    · rw [if_neg hsp]
      exact ⟨_, rfl⟩
  · rw [if_neg hP]
    exact ⟨_, rfl⟩

lemma foldlM_cat_keyError (f : SimState → Cat → Except SimError SimState) (c0 : Cat)
    (herr : ∀ st, f st c0 = .error (.keyError c0))
    (hok : ∀ st c, c ≠ c0 → ∃ st2, f st c = .ok st2) :
    ∀ (l : List Cat) (st : SimState), c0 ∈ l →
      List.foldlM f st l = .error (.keyError c0) := by
  intro l
  induction l with
  | nil =>
    intro st hmem
    exact absurd hmem (List.not_mem_nil c0)
  | cons a l ih =>
    intro st hmem
    rw [List.foldlM_cons]
    by_cases ha : a = c0
    · subst ha
      rw [herr st, errorBind]
    · obtain ⟨st2, hst2⟩ := hok st a ha
      rw [hst2, okBind]
      refine ih st2 ?_
      rcases List.mem_cons.mp hmem with h | h
      · exact absurd h.symm ha
      · exact h

lemma init_fold_ok (g : Cat → ℚ) (n : ℕ) (hn : 1 ≤ n) :
    ∃ st1, List.foldlM (fun (st : SimState) (pr : Cat × ℚ) =>
        if n = 0 then (Except.error SimError.indexError : Except SimError SimState)
        else Except.ok { st with backlog := setEntry st.backlog pr.1 0 pr.2 })
      ({ backlog := fun _ => List.replicate n 0, seen := fun _ => List.replicate n 0 } : SimState)
      (initList g) = .ok st1 := by
  have h0 : ¬ (n = 0) := by omega
  simp only [initList, allCats, List.map_cons, List.map_nil]
  rw [List.foldlM_cons, if_neg h0, okBind, List.foldlM_cons, if_neg h0, okBind,
    List.foldlM_cons, if_neg h0, okBind, List.foldlM_cons, if_neg h0, okBind, List.foldlM_nil]
  exact ⟨_, rfl⟩

/-- C8 (amended): a category missing from `avg_new_referrals_per_week`,
`avg_sessions_per_category` or `avg_weeks_between_sessions` makes the
simulation fail with a `KeyError` for that category at the first simulated
week (`num_weeks ≥ 2`, all other categories fully populated); a category
missing from `backlog_initial`, by contrast, is silently omitted from the
output (see the counterexample). -/
theorem C8_missing_category_amended (sk : SessionKey) (strategy : String) (T S : ℤ) (n : ℕ)
    (init : Cat → ℚ) (refs avgS : Cat → Option ℚ) (avgW : Cat → Option ℤ) (c0 : Cat)
    (hT : 0 < T) (hS : 0 < S) (hn : 2 ≤ n)
    (hmiss : refs c0 = none ∨ avgS c0 = none ∨ avgW c0 = none)
    (hfull : ∀ c, c ≠ c0 → (∃ r, refs c = some r) ∧ (∃ a, avgS c = some a) ∧
      (∃ w, avgW c = some w ∧ w ≠ 0)) :
    simulate_backlog_reduction sk strategy T S refs n (initList init) avgS avgW
      = .error (.keyError c0) := by
  rw [simulate_backlog_reduction]
  rw [if_neg (by omega : ¬ T ≤ 0), if_neg (by omega : ¬ S ≤ 0)]
  dsimp only
  have hkeys : (initList init).map Prod.fst = allCats := by
    simp [initList, allCats]
  rw [hkeys]
  obtain ⟨st1, hst1⟩ := init_fold_ok init n (by omega)
  rw [hst1, okBind]
  obtain ⟨r, hr⟩ : ∃ r, n - 1 = r + 1 := ⟨n - 2, by omega⟩
  rw [hr, List.range'_succ, List.foldlM_cons]
  have hws : weekStep strategy T S ((calculate_extra_sessions sk T (n : ℤ)).2.2)
      refs avgS avgW allCats st1 1 = .error (.keyError c0) := by
    unfold weekStep
    refine foldlM_cat_keyError _ c0 ?_ ?_ allCats st1 ?_
    · intro st
      exact categoryStep_keyError _ _ _ _ _ _ _ _ _ _ _ _ hmiss
    · intro st c hc
      exact categoryStep_exists_ok _ _ _ _ _ _ _ _ _ _ _ _
        (hfull c hc).1 (hfull c hc).2.1 (hfull c hc).2.2
    · cases c0 <;> simp [allCats]
  rw [hws]
  rfl

theorem C8_missing_category_amended_witness :
    simulate_backlog_reduction .min60 urgencyStrategy 1 1
      (fun c => match c with | .P3 => none | _ => some 1) 2
      (initList fun _ => 1)
      (fun _ => some 2) (fun _ => some 5)
      = .error (.keyError .P3) :=
  C8_missing_category_amended .min60 urgencyStrategy 1 1 2 (fun _ => 1)
    (fun c => match c with | .P3 => none | _ => some 1) (fun _ => some 2) (fun _ => some 5)
    Cat.P3 (by decide) (by decide) (by decide) (Or.inl rfl)
    (fun c hc => by
      cases c
      · exact ⟨⟨1, rfl⟩, ⟨2, rfl⟩, ⟨5, rfl, by decide⟩⟩
      · exact ⟨⟨1, rfl⟩, ⟨2, rfl⟩, ⟨5, rfl, by decide⟩⟩
      · exact absurd rfl hc
      · exact ⟨⟨1, rfl⟩, ⟨2, rfl⟩, ⟨5, rfl, by decide⟩⟩)

unseal Rat.add Rat.mul Rat.sub Rat.inv in
theorem C8_missing_category_counterexample :
    ((simulate_backlog_reduction .min60 urgencyStrategy 1 4 (fullMapQ fun _ => 1) 2
        [(Cat.P1, 10), (Cat.P2, 5), (Cat.P3, 3)]
        (fullMapQ fun _ => 2) (fullMapZ fun _ => 5)).map
      (fun o => o.backlog_projection.map Prod.fst)) = .ok [Cat.P1, Cat.P2, Cat.P3] := by
  decide

lemma specialWeek_of_ne (s : String) (h : s ≠ rotatingStrategy) (wn : ℕ) :
    specialWeek s wn = false := by
  simp [specialWeek, h]

lemma allocationFor_of_ne (s : String) (h1 : s ≠ rotatingStrategy)
    (h2 : s ≠ evenSplitStrategy) (b : Bool) :
    allocationFor s b = allocationFor urgencyStrategy b := by
  rw [allocationFor, allocationFor, if_neg h1, if_neg h2,
    if_neg (by decide : ¬ (urgencyStrategy = rotatingStrategy)),
    if_neg (by decide : ¬ (urgencyStrategy = evenSplitStrategy))]

lemma categoryStep_of_ne (s : String) (h1 : s ≠ rotatingStrategy)
    (h2 : s ≠ evenSplitStrategy) (b : Bool) (T S x : ℤ)
    (refs avgS : Cat → Option ℚ) (avgW : Cat → Option ℤ) (wn i : ℕ)
    (st : SimState) (c : Cat) :
    categoryStep s b T S x refs avgS avgW wn i st c =
    categoryStep urgencyStrategy b T S x refs avgS avgW wn i st c := by
  have hu : ¬ (urgencyStrategy = rotatingStrategy) := by decide
  simp [categoryStep, allocationFor_of_ne s h1 h2, h1, hu]

lemma weekStep_of_ne (s : String) (h1 : s ≠ rotatingStrategy)
    (h2 : s ≠ evenSplitStrategy) (T S x : ℤ)
    (refs avgS : Cat → Option ℚ) (avgW : Cat → Option ℤ) (keys : List Cat)
    (st : SimState) (i : ℕ) :
    weekStep s T S x refs avgS avgW keys st i =
    weekStep urgencyStrategy T S x refs avgS avgW keys st i := by
  unfold weekStep
  dsimp only
  have hsw : specialWeek s (i + 1) = specialWeek urgencyStrategy (i + 1) := by
    rw [specialWeek_of_ne s h1, specialWeek_of_ne urgencyStrategy (by decide)]
  rw [hsw]
  rw [show (categoryStep s (specialWeek urgencyStrategy (i + 1)) T S x refs avgS avgW (i + 1) i)
      = (categoryStep urgencyStrategy (specialWeek urgencyStrategy (i + 1)) T S x refs avgS avgW (i + 1) i) from
    funext fun st2 => funext fun c =>
      categoryStep_of_ne s h1 h2 (specialWeek urgencyStrategy (i + 1)) T S x refs avgS avgW (i + 1) i st2 c]

lemma simulate_strategy_of_ne (sk : SessionKey) (s : String) (T S : ℤ)
    (refs : Cat → Option ℚ) (n : ℕ) (bi : List (Cat × ℚ)) (avgS : Cat → Option ℚ)
    (avgW : Cat → Option ℤ)
    (h1 : s ≠ rotatingStrategy) (h2 : s ≠ evenSplitStrategy) :
    simulate_backlog_reduction sk s T S refs n bi avgS avgW =
    simulate_backlog_reduction sk urgencyStrategy T S refs n bi avgS avgW := by
  simp only [simulate_backlog_reduction]
  rw [show (weekStep s T S ((calculate_extra_sessions sk T (n : ℤ)).2.2) refs avgS avgW
      (bi.map Prod.fst))
      = (weekStep urgencyStrategy T S ((calculate_extra_sessions sk T (n : ℤ)).2.2) refs avgS avgW
      (bi.map Prod.fst)) from
    funext fun st => funext fun i =>
      weekStep_of_ne s h1 h2 _ _ _ refs avgS avgW _ st i]

/-- C10: an unrecognised strategy string (anything other than
`"1 in 4 weeks for P3/P4"` and `"Even Split (50/50)"`) raises no error and is
silently run through the `else` branch, the UrgencyWeighted allocation
(P1 0.5, P2 0.3, P3 0, P4 0), producing exactly the output the
`"Urgency-Weighted Scheduling"` string produces; on a valid configuration the
run succeeds. -/
theorem C10_unknown_strategy_is_urgency (sk : SessionKey) (s : String) (T S : ℤ) (n : ℕ)
    (refs avgS init : Cat → ℚ) (avgW : Cat → ℤ)
    (h1 : s ≠ rotatingStrategy) (h2 : s ≠ evenSplitStrategy)
    (hT : 0 < T) (hS : 0 < S) (hn : 1 ≤ n) (hW : ∀ c, 0 < avgW c) :
    simulate_backlog_reduction sk s T S (fullMapQ refs) n (initList init)
      (fullMapQ avgS) (fullMapZ avgW)
      = simulate_backlog_reduction sk urgencyStrategy T S (fullMapQ refs) n (initList init)
      (fullMapQ avgS) (fullMapZ avgW)
    ∧ (simulate_backlog_reduction sk s T S (fullMapQ refs) n (initList init)
      (fullMapQ avgS) (fullMapZ avgW)).isOk = true := by
  have heq := simulate_strategy_of_ne sk s T S (fullMapQ refs) n (initList init)
    (fullMapQ avgS) (fullMapZ avgW) h1 h2
  refine ⟨heq, ?_⟩
  obtain ⟨out2, hok⟩ : ∃ o, simulate_backlog_reduction sk urgencyStrategy T S (fullMapQ refs) n
      (initList init) (fullMapQ avgS) (fullMapZ avgW) = .ok o :=
    ⟨_, simulate_eq_run sk (mkRun sk urgencyStrategy T S n refs avgS init avgW) n hT hS hn
      (fun c => (hW c).ne') rfl⟩
  rw [heq, hok]
  rfl

unseal Rat.add Rat.mul Rat.sub Rat.inv in
theorem C10_unknown_strategy_is_urgency_witness :
    simulate_backlog_reduction .min60 ("Urgency Weighted") 1 4 (fullMapQ fun _ => 1) 2
      (initList fun _ => 2) (fullMapQ fun _ => 2) (fullMapZ fun _ => 5)
      = simulate_backlog_reduction .min60 urgencyStrategy 1 4 (fullMapQ fun _ => 1) 2
      (initList fun _ => 2) (fullMapQ fun _ => 2) (fullMapZ fun _ => 5)
    ∧ (simulate_backlog_reduction .min60 ("Urgency Weighted") 1 4 (fullMapQ fun _ => 1) 2
      (initList fun _ => 2) (fullMapQ fun _ => 2) (fullMapZ fun _ => 5)).isOk = true :=
  C10_unknown_strategy_is_urgency .min60 ("Urgency Weighted") 1 4 2 (fun _ => 1) (fun _ => 2)
    (fun _ => 2) (fun _ => 5) (by decide) (by decide) (by decide) (by decide) (by decide)
    (fun c => by cases c <;> decide)
